import Mathlib

/-!
Verification development for the bug-report-autopilot repository.

The repository's core logic lives in
`src/backend/src/controllers/bugReportController.js`.  This file gives a
shallow embedding of that code in Lean 4 and proves the specification's
claims about it.

Modelling conventions:
* JavaScript strings are modelled as `List Char` (abbreviated `Str`);
  `String.prototype.toLowerCase` is `List.map Char.toLower` (the inputs of
  interest are ASCII), `includes` is the executable substring test
  `containsSub`, `substring(0, n)` is `List.take n`.
* JavaScript objects with optional fields are structures with `Option`
  fields; an absent / `undefined` field is `none`.
* The `Map` used for in-memory storage and JavaScript object spreads are
  association lists with first-match lookup; `Map.set` overwrites in place
  or appends (`mapSet`), and object spread is `jsMerge`.
* External effects (the OpenAI model, Supabase, Linear, the clock,
  `Math.random`) are passed in explicitly: the model-free fallback paths
  are embedded directly, remote-store success/failure and thrown internal
  errors are Boolean oracles, timestamps and random values are parameters.
* Every function is total and computable, so the JavaScript functions'
  determinism and totality on well-formed input are captured by the
  embedding itself.
-/

namespace BugAutopilot

/-- JavaScript strings, modelled as lists of characters. -/
abbrev Str := List Char

/-- Model of `String.prototype.toLowerCase` (ASCII case folding). -/
def lowerStr (s : Str) : Str := s.map Char.toLower

/-- Model of `hay.includes(needle)`: `needle` occurs as a contiguous
substring of `hay` (the empty needle always matches, as in JavaScript). -/
def containsSub (needle : Str) : Str → Bool
  | [] => needle.isEmpty
  | c :: rest => needle.isPrefixOf (c :: rest) || containsSub needle rest

/-- The structured report produced by `generateBugReport` (the exact
four-field JSON schema), together with the `additional_info` and
`created_at` fields that later pipeline stages attach to the same object. -/
structure StructuredReport where
  title : Str
  suspected_root_cause : Str
  evidence : List Str
  next_steps : List Str
  additional_info : List (Str × Str)
  created_at : Option Str
deriving DecidableEq, Repr

/-- The fixed set of follow-up question categories produced by the gate. -/
inductive FollowUpType where
  | reproduction_steps
  | environment
  | version
  | user_context
  | data_context
  | screenshot
deriving DecidableEq, Repr

/-- One follow-up request `{type, question}` from `checkIfNeedsMoreInfo`. -/
structure FollowUpRequest where
  type : FollowUpType
  question : Str
deriving DecidableEq, Repr

/-- The non-null result object of `checkIfNeedsMoreInfo`. -/
structure MoreInfoResult where
  needs_more_info : Bool
  confidence : Str
  requests : List FollowUpRequest
deriving DecidableEq, Repr

/-- The fixed uncertainty vocabulary from `checkIfNeedsMoreInfo`. -/
def uncertaintyTerms : List Str :=
  [("unclear".toList), ("unknown".toList), ("uncertain".toList),
   ("possible".toList), ("might".toList), ("could be".toList),
   ("not enough information".toList), ("insufficient".toList),
   ("additional details needed".toList), ("vague".toList),
   ("ambiguous".toList), ("sometimes".toList), ("occasionally".toList),
   ("intermittent".toList)]

/-- The request list built inside `checkIfNeedsMoreInfo` once the report
has been judged to need more information (source lines 336-391).
`rootCause` is the already lower-cased root cause, and `vagueEvidence` the
vague-evidence Boolean, exactly as in the source. -/
def buildRequests (reportJson : StructuredReport) (rootCause : Str)
    (vagueEvidence : Bool) : List FollowUpRequest :=
  (if containsSub ("reproduce".toList) rootCause ||
      !(containsSub ("steps to".toList) rootCause) ||
      reportJson.next_steps.any
        (fun step => containsSub ("reproduce".toList) (lowerStr step)) then
    [⟨FollowUpType.reproduction_steps,
      ("Please provide specific steps to reproduce this issue. What were you doing right before the problem occurred?".toList)⟩]
  else []) ++
  (if containsSub ("environment".toList) rootCause || vagueEvidence ||
      reportJson.next_steps.any
        (fun step => containsSub ("environment".toList) (lowerStr step)) then
    [⟨FollowUpType.environment,
      ("What environment are you experiencing this issue in? (browser, OS, device, screen size, etc.)".toList)⟩]
  else []) ++
  (if containsSub ("version".toList) rootCause ||
      reportJson.next_steps.any
        (fun step => containsSub ("version".toList) (lowerStr step)) then
    [⟨FollowUpType.version,
      ("What version of the software are you using? Is this a recent change?".toList)⟩]
  else []) ++
  (if containsSub ("user".toList) (lowerStr reportJson.title) ||
      containsSub ("user".toList) (lowerStr rootCause) then
    [⟨FollowUpType.user_context,
      ("What were you trying to accomplish when you encountered this bug? What is your user role?".toList)⟩]
  else []) ++
  (if containsSub ("data".toList) (lowerStr rootCause) ||
      reportJson.evidence.any
        (fun e => containsSub ("data".toList) (lowerStr e)) then
    [⟨FollowUpType.data_context,
      ("What kind of data were you working with when the issue occurred? Any specific inputs that trigger the problem?".toList)⟩]
  else []) ++
  (if !(reportJson.evidence.any
        (fun e => containsSub ("screenshot".toList) (lowerStr e))) then
    [⟨FollowUpType.screenshot,
      ("Could you provide a screenshot or screen recording that shows the issue?".toList)⟩]
  else [])

/-- The information-sufficiency gate `checkIfNeedsMoreInfo`
(source lines 301-401). -/
def checkIfNeedsMoreInfo (reportJson : StructuredReport) :
    Option MoreInfoResult :=
  let rootCause := lowerStr reportJson.suspected_root_cause
  let hasUncertainty :=
    uncertaintyTerms.any (fun term => containsSub term rootCause)
  let thinEvidence := reportJson.evidence.length < 2
  let vagueEvidence := reportJson.evidence.any (fun item =>
    item.length < 20 ||
    !(containsSub ("/".toList) item) ||
    (containsSub ("code".toList) item && !(containsSub (":".toList) item)))
  let requestsMoreInfo := reportJson.next_steps.any (fun step =>
    let lowerStep := lowerStr step
    containsSub ("provide more".toList) lowerStep ||
    containsSub ("additional info".toList) lowerStep ||
    containsSub ("reproduction steps".toList) lowerStep ||
    containsSub ("more details".toList) lowerStep ||
    containsSub ("clarify".toList) lowerStep)
  let needsMoreInfo :=
    hasUncertainty || thinEvidence || vagueEvidence || requestsMoreInfo
  if needsMoreInfo then
    some ⟨true,
      (if hasUncertainty then ("low".toList)
       else if vagueEvidence then ("medium-low".toList)
       else ("medium".toList)),
      buildRequests reportJson rootCause vagueEvidence⟩
  else
    none

/-- Condition (a) of the claim: the lower-cased root-cause text contains
one of the fixed uncertainty terms. -/
def condA (r : StructuredReport) : Bool :=
  uncertaintyTerms.any
    (fun term => containsSub term (lowerStr r.suspected_root_cause))

/-- Condition (b) of the claim: the evidence has fewer than two entries. -/
def condB (r : StructuredReport) : Bool := r.evidence.length < 2

/-- Condition (c) of the claim: some evidence entry is shorter than 20
characters, or lacks a '/', or contains "code" without a ':'. -/
def condC (r : StructuredReport) : Bool :=
  r.evidence.any (fun item =>
    item.length < 20 ||
    !(containsSub ("/".toList) item) ||
    (containsSub ("code".toList) item && !(containsSub (":".toList) item)))

/-- Condition (d) of the claim: some lower-cased next-step contains one of
the fixed ask-for-more phrases. -/
def condD (r : StructuredReport) : Bool :=
  r.next_steps.any (fun step =>
    let lowerStep := lowerStr step
    containsSub ("provide more".toList) lowerStep ||
    containsSub ("additional info".toList) lowerStep ||
    containsSub ("reproduction steps".toList) lowerStep ||
    containsSub ("more details".toList) lowerStep ||
    containsSub ("clarify".toList) lowerStep)

/-- Some evidence string contains the substring "screenshot"
(case-insensitively), as tested by the gate's screenshot branch. -/
def mentionsScreenshot (evidence : List Str) : Bool :=
  evidence.any (fun e => containsSub ("screenshot".toList) (lowerStr e))

/-- The gate result asks for a screenshot. -/
def hasScreenshotRequest (res : MoreInfoResult) : Bool :=
  res.requests.any (fun q => q.type == FollowUpType.screenshot)

/-- Characters matched by the `\s` class of the split regex in
`searchCodebase` (the ASCII whitespace characters). -/
def isWsChar (c : Char) : Bool :=
  c == ' ' || c == '\t' || c == '\n' || c == '\x0d' || c == '\x0c' || c == '\x0b'

/-- Model of `description.split(/\s+/)`: split on maximal nonempty
whitespace runs, keeping the (possibly empty) pieces before the first run
and after the last one, exactly as the JavaScript `split` does.
`skipping` records whether the scan is currently inside a whitespace run;
`cur` is the reversed piece accumulated so far. -/
def splitWsAux : Bool → Str → Str → List Str
  | skipping, cur, [] => if skipping then [[]] else [cur.reverse]
  | skipping, cur, c :: rest =>
    if isWsChar c then
      if skipping then splitWsAux true [] rest
      else cur.reverse :: splitWsAux true [] rest
    else splitWsAux false (c :: cur) rest

/-- Model of `bugReport.toLowerCase().split(/\s+/)`. -/
def jsSplitWs (s : Str) : List Str := splitWsAux false [] s

/-- The per-file keyword score of `searchCodebase` (source lines 105-110):
the number of keyword tokens occurring as substrings of the lower-cased
path, counted with multiplicity via `reduce`. -/
def scoreFile (keywords : List Str) (file : Str) : Nat :=
  let lowerPath := lowerStr file
  keywords.foldl
    (fun sum keyword => sum + (if containsSub keyword lowerPath then 1 else 0)) 0

/-- Stable insertion of `x` into a list sorted by non-increasing `score`:
`x` is placed before the first element whose score is at most its own, so
among equal scores the inserted (earlier-in-input) element comes first. -/
def insertByScoreDesc (score : Str → Nat) (x : Str) : List Str → List Str
  | [] => [x]
  | y :: ys =>
    if score y ≤ score x then x :: y :: ys
    else y :: insertByScoreDesc score x ys

/-- Stable sort by non-increasing `score`.  This models
`scoredFiles.sort((a, b) => b.score - a.score)`: ECMAScript guarantees
`Array.prototype.sort` to be stable, and a stable comparison sort with this
comparator is exactly the stable descending sort implemented here. -/
def sortByScoreDesc (score : Str → Nat) : List Str → List Str
  | [] => []
  | x :: xs => insertByScoreDesc score x (sortByScoreDesc score xs)

/-- The keyword fallback path of `searchCodebase` (source lines 100-116),
taken whenever no model is configured or the model call fails: lower-case
and whitespace-split the description, score every candidate path, stable
sort by descending score and keep the first 10. -/
def searchCodebase (bugReport : Str) (allFiles : List Str) : List Str :=
  let keywords := jsSplitWs (lowerStr bugReport)
  ((sortByScoreDesc (scoreFile keywords) allFiles).take 10)

/-- The fields of `bugData` used by the synthesizer
(`description, logs, steps, additionalContext, screenshots`). -/
structure BugData where
  description : Str
  logs : Option Str
  steps : Option Str
  additionalContext : Option Str
  screenshots : List Str
deriving DecidableEq, Repr

/-- The deterministic fallback of `generateBugReport` (source lines
227-243), used when no model is configured: a mock report built from the
description and the presence of screenshots. -/
def generateBugReport (bugData : BugData) : StructuredReport :=
  ⟨bugData.description.take 50 ++
     (if 50 < bugData.description.length then ("...".toList) else []),
   ("Unable to generate detailed analysis without AI integration.".toList),
   [("Reported bug description".toList),
    ("Available code files (analysis unavailable)".toList),
    (if 0 < bugData.screenshots.length then
       ("Provided screenshots (analysis unavailable)".toList)
     else ("No screenshots provided".toList))],
   [("Review the reported description manually".toList),
    ("Check the relevant files identified in the report".toList),
    ("Implement proper error handling and validation".toList)],
   [], none⟩

/-- A path separator character, the `[\/\\]` class of the extraction
regex in `generateMarkdownReport`. -/
def isSepChar (c : Char) : Bool := c == '/' || c == '\\'

/-- A character of the `[^\/\\:]` class of the extraction regex. -/
def isClassChar (c : Char) : Bool := !(isSepChar c) && !(c == ':')

/-- The extension alternatives `(js|jsx|ts|tsx|css|html|json)` in the
order the regex tries them. -/
def extAlternatives : List Str :=
  [("js".toList), ("jsx".toList), ("ts".toList), ("tsx".toList),
   ("css".toList), ("html".toList), ("json".toList)]

/-- Ordered alternation: the first extension that is a prefix of `s`
(nothing anchors the regex after the alternation, so a prefix suffices). -/
def matchExtAt (s : Str) : Option Str :=
  extAlternatives.find? (fun e => e.isPrefixOf s)

/-- Greedy backtracking for the tail `[^\/\\:]+\.(js|...)` of the regex,
matched against `t`: the class consumes `k ≥ 1` characters (largest first,
as a greedy `+` does), the next character must be a literal '.', and an
extension alternative must follow. -/
def trySecondSeg (t : Str) : Nat → Option Str
  | 0 => none
  | Nat.succ k =>
    match t.drop (Nat.succ k) with
    | '.' :: rest =>
      match matchExtAt rest with
      | some ext => some (t.take (Nat.succ k) ++ '.' :: ext)
      | none => trySecondSeg t k
    | _ => trySecondSeg t k

/-- One match attempt of the regex
`[\/\\][^\/\\:]+[\/\\][^\/\\:]+\.(js|jsx|ts|tsx|css|html|json)` at a
position whose character is the separator `c1` and whose remaining text is
`u`.  The first `+` is effectively maximal (shrinking it leaves a class
character where a separator is required), then a second separator and the
greedy tail must follow. -/
def attemptMatch (c1 : Char) (u : Str) : Option Str :=
  let a := u.takeWhile isClassChar
  if a.isEmpty then none
  else
    match u.drop a.length with
    | c2 :: v =>
      if isSepChar c2 then
        match trySecondSeg v ((v.takeWhile isClassChar).length) with
        | some s => some (c1 :: (a ++ c2 :: s))
        | none => none
      else none
    | [] => none

/-- Model of `item.match(regex)` returning the first capture: scan the
starting positions left to right and return the first successful attempt,
or `none` when the regex does not match. -/
def matchPathRegex : Str → Option Str
  | [] => none
  | c :: rest =>
    match (if isSepChar c then attemptMatch c rest else none) with
    | some s => some s
    | none => matchPathRegex rest

/-- The `filePaths` extraction of `generateMarkdownReport` (source lines
265-271): keep evidence entries containing a separator, extract the first
regex match from each, and drop the entries with no match.  No
deduplication is performed. -/
def extractFilePaths (evidence : List Str) : List Str :=
  (evidence.filter (fun item =>
      containsSub ("/".toList) item || containsSub ("\\".toList) item)).filterMap
    matchPathRegex

/-- Model of `array.join(sep)` after mapping, specialised to '\n'. -/
def joinNl (l : List Str) : Str := (l.intersperse ("\n".toList)).flatten

/-- The markdown renderer `generateMarkdownReport` (source lines 263-293),
reproducing the template literal of the source. -/
def generateMarkdownReport (reportJson : StructuredReport) : Str :=
  let filePaths := extractFilePaths reportJson.evidence
  ("# Bug Report: ".toList) ++ reportJson.title ++
  ("\n\n## Suspected Root Cause\n".toList) ++
  reportJson.suspected_root_cause ++
  ("\n\n## Technical Evidence\n".toList) ++
  joinNl (reportJson.evidence.map (fun item => ("- ".toList) ++ item)) ++
  ("\n\n## Recommended Next Steps for Developers\n".toList) ++
  joinNl (reportJson.next_steps.map (fun item => ("- ".toList) ++ item)) ++
  ("\n\n".toList) ++
  (if 0 < filePaths.length then
     ("\n## Files Involved\n".toList) ++
     joinNl (filePaths.map (fun file =>
       ("- `".toList) ++ file ++ ("`".toList))) ++
     ("\n".toList)
   else []) ++
  ("\n\n---\nReport generated by Bug Report AI\n".toList)

/-- A Linear issue reference as returned by `createLinearIssue`. -/
structure LinearIssue where
  id : Str
  number : Nat
  url : Str
deriving DecidableEq, Repr

/-- The `userData` argument of `storeBugReport`. -/
structure UserData where
  email : Option Str
  name : Option Str
deriving DecidableEq, Repr

/-- A stored report row.  Optional fields model JavaScript fields that may
be absent / `undefined` on a given record. -/
structure ReportRecord where
  id : Str
  title : Str
  content_json : StructuredReport
  content_markdown : Str
  created_at : Str
  linear_issue_id : Option Str
  linear_issue_number : Option Nat
  linear_issue_url : Option Str
  reporter_email : Option Str
  reporter_name : Option Str
  status : Option Str
  feedback_requested : Option Bool
  files_analyzed : List Str
  screenshots : List Str
  last_updated : Option Str
deriving DecidableEq, Repr

/-- The storage state: the remote Supabase table (absent when Supabase is
not configured) and the in-process `inMemoryReports` map, both as
association lists keyed by report id. -/
structure StoreState where
  supabase : Option (List (Str × ReportRecord))
  inMemory : List (Str × ReportRecord)
deriving DecidableEq, Repr

/-- Lookup by id in an association-list store (first match wins, as in a
JavaScript `Map` with unique keys). -/
def lookupStore (m : List (Str × ReportRecord)) (id : Str) :
    Option ReportRecord :=
  (m.find? (fun p => p.1 == id)).map (fun p => p.2)

/-- Model of `Map.prototype.set`: overwrite the entry in place when the
key is present, append otherwise. -/
def mapSet (m : List (Str × ReportRecord)) (id : Str) (r : ReportRecord) :
    List (Str × ReportRecord) :=
  if m.any (fun p => p.1 == id) then
    m.map (fun p => if p.1 == id then (id, r) else p)
  else m ++ [(id, r)]

/-- Decimal rendering of a natural number, for the generated ids. -/
def natStr (n : Nat) : Str := (Nat.repr n).toList

/-- Whether an optional JavaScript string field is truthy (present and
nonempty). -/
def isTruthyStr : Option Str → Bool
  | some s => !s.isEmpty
  | none => false

/-- JavaScript object spread `{...old, ...upd}` on string-keyed objects:
the keys of `old` in order with values overridden by `upd` where shared,
followed by the keys of `upd` not present in `old`, in `upd`'s order.
(Objects built by the code have pairwise distinct keys.) -/
def jsMerge (old upd : List (Str × Str)) : List (Str × Str) :=
  old.map (fun p =>
    match upd.find? (fun q => q.1 == p.1) with
    | some q => (p.1, q.2)
    | none => p) ++
  upd.filter (fun q => !(old.any (fun p => p.1 == q.1)))

/-- Lookup in a string-keyed JavaScript object model. -/
def jsLookup (m : List (Str × Str)) (k : Str) : Option Str :=
  (m.find? (fun p => p.1 == k)).map (fun p => p.2)

/-- The `storeBugReport` function (source lines 504-579).  `nowMs` and
`rand` model `Date.now()` and `Math.floor(Math.random() * 1000)` (the
model reduces `rand` modulo 1000), `nowIso` models
`new Date().toISOString()`, `remoteInsertOk` models whether the Supabase
insert succeeds, and `internalError` models the outer `try` block throwing
at its first statement (the catch branch of lines 561-578); the function
then returns the minimal `fallback-` record and still writes it to the
in-memory map. -/
def storeBugReport (reportJson : StructuredReport) (reportMarkdown : Str)
    (linearIssue : Option LinearIssue) (userData : UserData)
    (filesAnalyzed screenshots : List Str)
    (nowMs rand : Nat) (nowIso : Str)
    (remoteInsertOk internalError : Bool)
    (st : StoreState) : ReportRecord × StoreState :=
  if internalError then
    let fallbackReport : ReportRecord :=
      ⟨("fallback-".toList) ++ natStr nowMs,
       (if reportJson.title.isEmpty then ("Bug Report".toList)
        else reportJson.title),
       reportJson, reportMarkdown, nowIso,
       none, none, none, none, none, none, none,
       filesAnalyzed, screenshots, none⟩
    (fallbackReport,
     ⟨st.supabase, mapSet st.inMemory fallbackReport.id fallbackReport⟩)
  else
    let rj : StructuredReport :=
      ⟨reportJson.title, reportJson.suspected_root_cause,
       reportJson.evidence, reportJson.next_steps,
       reportJson.additional_info, some nowIso⟩
    let emailTruthy := isTruthyStr userData.email
    let reportData : ReportRecord :=
      ⟨("report-".toList) ++ natStr nowMs ++ ("-".toList) ++
         natStr (rand % 1000),
       rj.title, rj, reportMarkdown, nowIso,
       linearIssue.map LinearIssue.id,
       linearIssue.map LinearIssue.number,
       linearIssue.map LinearIssue.url,
       (if emailTruthy then userData.email else none),
       (if emailTruthy then
          (match userData.name with
           | some n => if n.isEmpty then none else some n
           | none => none)
        else none),
       (if emailTruthy then some ("open".toList) else none),
       (if emailTruthy then some false else none),
       filesAnalyzed, screenshots, none⟩
    match st.supabase, remoteInsertOk with
    | some db, true =>
      (reportData, ⟨some (db ++ [(reportData.id, reportData)]), st.inMemory⟩)
    | some _, false =>
      (reportData,
       ⟨st.supabase, mapSet st.inMemory reportData.id reportData⟩)
    | none, _ =>
      (reportData,
       ⟨st.supabase, mapSet st.inMemory reportData.id reportData⟩)

/-- The in-memory record update performed by `confirmBugReport` (source
lines 740-750): spread the stored record, set the three Linear fields from
the optional issue (to `undefined` when there is none), set the status to
"confirmed" and refresh `last_updated`. -/
def confirmUpdate (r : ReportRecord) (li : Option LinearIssue)
    (nowIso : Str) : ReportRecord :=
  ⟨r.id, r.title, r.content_json, r.content_markdown, r.created_at,
   li.map LinearIssue.id, li.map LinearIssue.number, li.map LinearIssue.url,
   r.reporter_email, r.reporter_name, some ("confirmed".toList),
   r.feedback_requested, r.files_analyzed, r.screenshots, some nowIso⟩

/-- The Supabase row update performed by `confirmBugReport` (source lines
720-729): the Linear fields are only written when an issue was created
(the spread of `{}` writes nothing), then status and `last_updated`. -/
def confirmUpdateRemote (r : ReportRecord) (li : Option LinearIssue)
    (nowIso : Str) : ReportRecord :=
  match li with
  | some issue =>
    ⟨r.id, r.title, r.content_json, r.content_markdown, r.created_at,
     some issue.id, some issue.number, some issue.url,
     r.reporter_email, r.reporter_name, some ("confirmed".toList),
     r.feedback_requested, r.files_analyzed, r.screenshots, some nowIso⟩
  | none =>
    ⟨r.id, r.title, r.content_json, r.content_markdown, r.created_at,
     r.linear_issue_id, r.linear_issue_number, r.linear_issue_url,
     r.reporter_email, r.reporter_name, some ("confirmed".toList),
     r.feedback_requested, r.files_analyzed, r.screenshots, some nowIso⟩

/-- The `confirmBugReport` function (source lines 659-772).
`linearResult` stands for the outcome of `createLinearIssue` (always
`none` when Linear is not configured), `remoteSelectOk` and
`remoteUpdateOk` model the two Supabase round trips.  The returned state
is always the (possibly unchanged) storage state; the `Except` value
models the thrown error or the successful response. -/
def confirmBugReport (reportId : Str) (linearResult : Option LinearIssue)
    (remoteSelectOk remoteUpdateOk : Bool) (nowIso : Str)
    (st : StoreState) : (Except Str Unit) × StoreState :=
  if reportId.isEmpty then
    (Except.error ("Report ID is required".toList), st)
  else
    let fromRemote : Option ReportRecord :=
      match st.supabase with
      | some db => if remoteSelectOk then lookupStore db reportId else none
      | none => none
    let reportData : Option ReportRecord :=
      match fromRemote with
      | some r => some r
      | none => lookupStore st.inMemory reportId
    match reportData with
    | none => (Except.error ("Bug report not found".toList), st)
    | some _ =>
      let remoteUpdated : Option (List (Str × ReportRecord)) :=
        match st.supabase with
        | some db =>
          if remoteUpdateOk && db.any (fun p => p.1 == reportId) then
            some (db.map (fun p =>
              if p.1 == reportId then
                (p.1, confirmUpdateRemote p.2 linearResult nowIso)
              else p))
          else none
        | none => none
      match remoteUpdated with
      | some db2 => (Except.ok (), ⟨some db2, st.inMemory⟩)
      | none =>
        match lookupStore st.inMemory reportId with
        | some memRec =>
          let upd := confirmUpdate memRec linearResult nowIso
          (Except.ok (), ⟨st.supabase, mapSet st.inMemory reportId upd⟩)
        | none => (Except.ok (), st)

/-- The record update performed by `submitAdditionalInfo` (source lines
844-861): merge the responses (and a fresh `submitted_at`) into
`additional_info`, clear `feedback_requested`, refresh `last_updated`;
every other field, including the top-level status, is spread unchanged. -/
def submitUpdate (r : ReportRecord) (responses : List (Str × Str))
    (nowIso : Str) : ReportRecord :=
  let newJson : StructuredReport :=
    ⟨r.content_json.title, r.content_json.suspected_root_cause,
     r.content_json.evidence, r.content_json.next_steps,
     jsMerge (jsMerge r.content_json.additional_info responses)
       [(("submitted_at".toList), nowIso)],
     r.content_json.created_at⟩
  ⟨r.id, r.title, newJson, r.content_markdown, r.created_at,
   r.linear_issue_id, r.linear_issue_number, r.linear_issue_url,
   r.reporter_email, r.reporter_name, r.status, some false,
   r.files_analyzed, r.screenshots, some nowIso⟩

/-- The `submitAdditionalInfo` function (source lines 777-894).  The
Linear comment step is effect-free with respect to the store and is not
modelled.  `remoteSelectOk` and `remoteUpdateOk` model the Supabase select
and update round trips.  On success the returned value is the id of the
updated record, as in the source's response object. -/
def submitAdditionalInfo (reportId : Str) (responses : List (Str × Str))
    (remoteSelectOk remoteUpdateOk : Bool) (nowIso : Str)
    (st : StoreState) : (Except Str Str) × StoreState :=
  if reportId.isEmpty then
    (Except.error ("Bug report ID is required".toList), st)
  else if responses.isEmpty then
    (Except.error ("Additional information is required".toList), st)
  else
    let remoteFound : Option ReportRecord :=
      match st.supabase with
      | some db => if remoteSelectOk then lookupStore db reportId else none
      | none => none
    let remoteUpdated : Option (ReportRecord × List (Str × ReportRecord)) :=
      match st.supabase, remoteFound with
      | some db, some rec =>
        if remoteUpdateOk then
          let upd := submitUpdate rec responses nowIso
          some (upd, db.map (fun p =>
            if p.1 == reportId then (p.1, upd) else p))
        else none
      | some _, none => none
      | none, _ => none
    match remoteUpdated with
    | some (upd, db2) => (Except.ok upd.id, ⟨some db2, st.inMemory⟩)
    | none =>
      let reportData : Option ReportRecord :=
        match remoteFound with
        | some r => some r
        | none => lookupStore st.inMemory reportId
      match reportData with
      | none => (Except.error ("Bug report not found".toList), st)
      | some rec =>
        let upd := submitUpdate rec responses nowIso
        (Except.ok upd.id, ⟨st.supabase, mapSet st.inMemory reportId upd⟩)

/-! ### Helper lemmas -/

/-- The gate, rewritten through the claim-side conditions (a)-(d): the
internal `hasUncertainty`, `thinEvidence`, `vagueEvidence` and
`requestsMoreInfo` Booleans are definitionally `condA`-`condD`. -/
theorem checkIfNeedsMoreInfo_eq (r : StructuredReport) :
    checkIfNeedsMoreInfo r =
      if condA r || condB r || condC r || condD r then
        some ⟨true,
          (if condA r then ("low".toList)
           else if condC r then ("medium-low".toList)
           else ("medium".toList)),
          buildRequests r (lowerStr r.suspected_root_cause) (condC r)⟩
      else none := rfl

/-- Any over a conditional singleton block. -/
theorem any_if_single {α : Type} (p : α → Bool) (c : Prop) [Decidable c]
    (q : α) :
    (if c then [q] else []).any p = if c then p q else false := by
  split <;> simp

/-- Only the final block of `buildRequests` can contribute a screenshot
request, and it does so exactly when no evidence entry mentions a
screenshot. -/
theorem buildRequests_screenshot (r : StructuredReport) (rootCause : Str)
    (v : Bool) :
    (buildRequests r rootCause v).any
        (fun q => q.type == FollowUpType.screenshot) =
      !(mentionsScreenshot r.evidence) := by
  unfold buildRequests mentionsScreenshot
  simp only [List.any_append, any_if_single]
  cases h : r.evidence.any
      (fun e => containsSub ("screenshot".toList) (lowerStr e)) <;>
    simp [h]

/-- Membership in a stable insertion. -/
theorem mem_insertByScoreDesc {score : Str → Nat} {x a : Str}
    {l : List Str} :
    a ∈ insertByScoreDesc score x l ↔ a = x ∨ a ∈ l := by
  induction l with
  | nil => simp [insertByScoreDesc]
  | cons y ys ih =>
    unfold insertByScoreDesc
    split
    · simp
    · simp only [List.mem_cons, ih]
      tauto

/-- Stable insertion preserves sortedness by non-increasing score. -/
theorem pairwise_insertByScoreDesc (score : Str → Nat) (x : Str)
    (l : List Str) (h : l.Pairwise (fun a b => score b ≤ score a)) :
    (insertByScoreDesc score x l).Pairwise
      (fun a b => score b ≤ score a) := by
  induction l with
  | nil => simp [insertByScoreDesc]
  | cons y ys ih =>
    rw [List.pairwise_cons] at h
    obtain ⟨hy, hys⟩ := h
    unfold insertByScoreDesc
    split
    · rename_i hle
      refine List.pairwise_cons.mpr ⟨?_, List.pairwise_cons.mpr ⟨hy, hys⟩⟩
      intro b hb
      rcases List.mem_cons.mp hb with hb | hb
      · exact hb ▸ hle
      · exact Nat.le_trans (hy b hb) hle
    · rename_i hgt
      refine List.pairwise_cons.mpr ⟨?_, ih hys⟩
      intro b hb
      rcases mem_insertByScoreDesc.mp hb with hb | hb
      · exact hb ▸ Nat.le_of_lt (Nat.lt_of_not_le hgt)
      · exact hy b hb

/-- The stable descending sort is sorted by non-increasing score. -/
theorem pairwise_sortByScoreDesc (score : Str → Nat) (l : List Str) :
    (sortByScoreDesc score l).Pairwise (fun a b => score b ≤ score a) := by
  induction l with
  | nil => simp [sortByScoreDesc]
  | cons x xs ih => exact pairwise_insertByScoreDesc score x _ ih

/-- The stable descending sort preserves membership. -/
theorem mem_sortByScoreDesc {score : Str → Nat} {a : Str} {l : List Str} :
    a ∈ sortByScoreDesc score l ↔ a ∈ l := by
  induction l with
  | nil => simp [sortByScoreDesc]
  | cons x xs ih =>
    unfold sortByScoreDesc
    rw [mem_insertByScoreDesc, ih, List.mem_cons]

/-- Stability of the insertion, expressed through equal-score filtering:
the inserted element lands in front of the equal-score elements already
present, and the relative order of the other elements is untouched. -/
theorem filter_insertByScoreDesc (score : Str → Nat) (x : Str)
    (l : List Str) (s : Nat) :
    (insertByScoreDesc score x l).filter (fun y => score y == s) =
      if score x == s then
        x :: l.filter (fun y => score y == s)
      else l.filter (fun y => score y == s) := by
  induction l with
  | nil =>
    unfold insertByScoreDesc
    split <;> simp_all
  | cons y ys ih =>
    unfold insertByScoreDesc
    split
    · rename_i hle
      by_cases hx : score x = s
      · simp [List.filter_cons, hx]
      · have : (score x == s) = false := by simpa using hx
        simp [List.filter_cons, this]
    · rename_i hgt
      have hlt : score x < score y := Nat.lt_of_not_le hgt
      by_cases hx : score x = s
      · have hxs : (score x == s) = true := by simpa using hx
        have hys : (score y == s) = false := by
          simp only [beq_eq_false_iff_ne, ne_eq]
          omega
        simp [List.filter_cons, hxs, hys, ih]
      · have hxs : (score x == s) = false := by simpa using hx
        simp only [List.filter_cons, ih, hxs, if_false]
        rfl

/-- Stability of the stable descending sort: the subsequence of elements
with any fixed score is exactly the corresponding subsequence of the
input, in the input's order. -/
theorem filter_sortByScoreDesc (score : Str → Nat) (l : List Str)
    (s : Nat) :
    (sortByScoreDesc score l).filter (fun y => score y == s) =
      l.filter (fun y => score y == s) := by
  induction l with
  | nil => simp [sortByScoreDesc]
  | cons x xs ih =>
    unfold sortByScoreDesc
    rw [filter_insertByScoreDesc]
    by_cases hx : score x = s
    · have hxs : (score x == s) = true := by simpa using hx
      simp [List.filter_cons, hxs, ih]
    · have hxs : (score x == s) = false := by simpa using hx
      simp [List.filter_cons, hxs, ih]

/-- Replacing the entry of a present key puts `(id, r)` into the map. -/
theorem pair_mem_map_replace (m : List (Str × ReportRecord)) (id : Str)
    (r : ReportRecord) (h : m.any (fun p => p.1 == id) = true) :
    (id, r) ∈ m.map (fun p => if p.1 == id then (id, r) else p) := by
  induction m with
  | nil => simp at h
  | cons p ps ih =>
    rw [List.any_cons] at h
    by_cases hp : (p.1 == id) = true
    · rw [List.map_cons, if_pos hp]
      exact List.mem_cons_self _ _
    · have hps : ps.any (fun p => p.1 == id) = true := by
        rcases Bool.or_eq_true_iff.mp h with h1 | h1
        · exact absurd h1 hp
        · exact h1
      rw [List.map_cons]
      exact List.mem_cons_of_mem _ (ih hps)

/-- After `mapSet m id r` the pair `(id, r)` is present in the map. -/
theorem pair_mem_mapSet (m : List (Str × ReportRecord)) (id : Str)
    (r : ReportRecord) : (id, r) ∈ mapSet m id r := by
  unfold mapSet
  split
  · rename_i h
    exact pair_mem_map_replace m id r h
  · exact List.mem_append_right _ (List.mem_cons_self _ _)

/-- After replacing the entry of a present key, lookup returns the new
record. -/
theorem find?_map_replace (m : List (Str × ReportRecord)) (id : Str)
    (r : ReportRecord) (h : m.any (fun p => p.1 == id) = true) :
    (m.map (fun p => if p.1 == id then (id, r) else p)).find?
        (fun p => p.1 == id) = some (id, r) := by
  induction m with
  | nil => simp at h
  | cons p ps ih =>
    rw [List.any_cons] at h
    by_cases hp : (p.1 == id) = true
    · rw [List.map_cons, if_pos hp]
      exact List.find?_cons_of_pos _ (by simp)
    · have hps : ps.any (fun p => p.1 == id) = true := by
        rcases Bool.or_eq_true_iff.mp h with h1 | h1
        · exact absurd h1 hp
        · exact h1
      rw [List.map_cons, if_neg hp,
        List.find?_cons_of_neg _ (by simpa using hp)]
      exact ih hps

/-- Lookup after `mapSet` at the written key returns the written record. -/
theorem lookupStore_mapSet_self (m : List (Str × ReportRecord)) (id : Str)
    (r : ReportRecord) : lookupStore (mapSet m id r) id = some r := by
  unfold mapSet lookupStore
  split
  · rename_i h
    rw [find?_map_replace m id r h]
    rfl
  · rename_i h
    rw [List.find?_append]
    have hnone : m.find? (fun p => p.1 == id) = none := by
      rw [List.find?_eq_none]
      intro x hx hpx
      exact h (List.any_eq_true.mpr ⟨x, hx, hpx⟩)
    rw [hnone, Option.none_or, List.find?_cons_of_pos _ (by simp)]
    rfl

/-- With no remote store configured, a successful additional-info
submission takes the in-memory path: it returns the updated record's id
and overwrites the stored record with `submitUpdate`. -/
theorem submitAdditionalInfo_memory (reportId : Str)
    (responses : List (Str × Str)) (sOk uOk : Bool) (nowIso : Str)
    (mem : List (Str × ReportRecord)) (rec : ReportRecord)
    (hid : reportId ≠ []) (hresp : responses ≠ [])
    (hmem : lookupStore mem reportId = some rec) :
    submitAdditionalInfo reportId responses sOk uOk nowIso ⟨none, mem⟩ =
      (Except.ok (submitUpdate rec responses nowIso).id,
       ⟨none, mapSet mem reportId (submitUpdate rec responses nowIso)⟩) := by
  have h1 : reportId.isEmpty = false := by simpa using hid
  have h2 : responses.isEmpty = false := by simpa using hresp
  unfold submitAdditionalInfo
  rw [h1, h2]
  simp only [Bool.false_eq_true, if_false]
  rw [hmem]

/-- A successful lookup means the key test succeeds somewhere in the
store. -/
theorem any_eq_true_of_lookupStore (m : List (Str × ReportRecord))
    (id : Str) (rec : ReportRecord) (h : lookupStore m id = some rec) :
    m.any (fun p => p.1 == id) = true := by
  unfold lookupStore at h
  cases hf : m.find? (fun p => p.1 == id) with
  | none =>
    rw [hf] at h
    exact Option.noConfusion h
  | some pr =>
    have hpred : (fun p : Str × ReportRecord => p.1 == id) pr = true :=
      @List.find?_some (Str × ReportRecord)
        (fun p => p.1 == id) pr m hf
    exact List.any_eq_true.mpr
      ⟨pr, List.mem_of_find?_eq_some hf, hpred⟩

/-- Lookup after replacing the value at a present key in place. -/
theorem lookupStore_map_replace (db : List (Str × ReportRecord))
    (id : Str) (upd : ReportRecord)
    (h : db.any (fun p => p.1 == id) = true) :
    lookupStore (db.map (fun p =>
      if p.1 == id then (p.1, upd) else p)) id = some upd := by
  induction db with
  | nil => simp at h
  | cons p ps ih =>
    rw [List.any_cons] at h
    by_cases hp : (p.1 == id) = true
    · unfold lookupStore
      rw [List.map_cons, if_pos hp,
        List.find?_cons_of_pos _ (by simpa using hp)]
      rfl
    · have hps : ps.any (fun p => p.1 == id) = true := by
        rcases Bool.or_eq_true_iff.mp h with h1 | h1
        · exact absurd h1 hp
        · exact h1
      unfold lookupStore
      rw [List.map_cons, if_neg hp,
        List.find?_cons_of_neg _ (by simpa using hp)]
      exact ih hps

/-- With the remote store configured and both round trips succeeding, a
successful additional-info submission updates the remote row in place and
leaves the in-process map untouched. -/
theorem submitAdditionalInfo_remote (reportId : Str)
    (responses : List (Str × Str)) (nowIso : Str)
    (db mem : List (Str × ReportRecord)) (rec : ReportRecord)
    (hid : reportId ≠ []) (hresp : responses ≠ [])
    (hdb : lookupStore db reportId = some rec) :
    submitAdditionalInfo reportId responses true true nowIso
        ⟨some db, mem⟩ =
      (Except.ok (submitUpdate rec responses nowIso).id,
       ⟨some (db.map (fun p =>
          if p.1 == reportId then
            (p.1, submitUpdate rec responses nowIso)
          else p)), mem⟩) := by
  have h1 : reportId.isEmpty = false := by simpa using hid
  have h2 : responses.isEmpty = false := by simpa using hresp
  unfold submitAdditionalInfo
  rw [h1, h2]
  simp only [Bool.false_eq_true, if_false]
  rw [hdb]
  rfl

/-- After two submissions on a record that starts with empty
`additional_info`, a key submitted first and a distinct key submitted
second are both present with their submitted values. -/
theorem submitUpdate_twice_distinct_keys (rec : ReportRecord)
    (h0 : rec.content_json.additional_info = []) (v1 v2 t1 t2 : Str) :
    jsLookup ((submitUpdate (submitUpdate rec [(("a".toList), v1)] t1)
        [(("b".toList), v2)] t2).content_json.additional_info)
      ("a".toList) = some v1 ∧
    jsLookup ((submitUpdate (submitUpdate rec [(("a".toList), v1)] t1)
        [(("b".toList), v2)] t2).content_json.additional_info)
      ("b".toList) = some v2 := by
  unfold submitUpdate
  simp only
  rw [h0]
  exact ⟨rfl, rfl⟩

/-- After submitting the same key twice on a record that starts with
empty `additional_info`, the key has a single entry holding the later
value. -/
theorem submitUpdate_twice_same_key (rec : ReportRecord)
    (h0 : rec.content_json.additional_info = []) (v1 v2 t1 t2 : Str) :
    ((submitUpdate (submitUpdate rec [(("a".toList), v1)] t1)
        [(("a".toList), v2)] t2).content_json.additional_info).filter
      (fun p => p.1 == ("a".toList)) = [(("a".toList), v2)] ∧
    jsLookup ((submitUpdate (submitUpdate rec [(("a".toList), v1)] t1)
        [(("a".toList), v2)] t2).content_json.additional_info)
      ("a".toList) = some v2 := by
  unfold submitUpdate
  simp only
  rw [h0]
  exact ⟨rfl, rfl⟩

/-! ### Claim theorems -/

/-- C1: for every StructuredReport, the gate computes `needs_more_info` as
the disjunction of conditions (a)-(d); it returns null exactly when none
of them holds, and when non-null the result's `needs_more_info` flag is
set and its confidence is "low" if (a) holds, else "medium-low" if (c)
holds, else "medium". -/
theorem gate_disjunction_and_confidence (r : StructuredReport) :
    ((checkIfNeedsMoreInfo r).isSome =
        (condA r || condB r || condC r || condD r)) ∧
    ((checkIfNeedsMoreInfo r).map MoreInfoResult.needs_more_info =
        if condA r || condB r || condC r || condD r then some true
        else none) ∧
    ((checkIfNeedsMoreInfo r).map MoreInfoResult.confidence =
        if condA r || condB r || condC r || condD r then
          some (if condA r then ("low".toList)
                else if condC r then ("medium-low".toList)
                else ("medium".toList))
        else none) := by
  rw [checkIfNeedsMoreInfo_eq]
  cases h : (condA r || condB r || condC r || condD r) <;>
    refine ⟨?_, ?_, ?_⟩ <;> simp [h]

/-- C4: the gate is a total function (it is a Lean function, hence
deterministic and never raising), and for every StructuredReport it
returns either null or a result whose request list contains a screenshot
entry exactly when no evidence string contains the substring "screenshot"
case-insensitively. -/
theorem gate_screenshot_entry (r : StructuredReport) :
    checkIfNeedsMoreInfo r = none ∨
    ∃ res, checkIfNeedsMoreInfo r = some res ∧
      hasScreenshotRequest res = !(mentionsScreenshot r.evidence) := by
  rw [checkIfNeedsMoreInfo_eq]
  cases h : (condA r || condB r || condC r || condD r)
  · exact Or.inl (by simp [h])
  · refine Or.inr ⟨⟨true,
      (if condA r then ("low".toList)
       else if condC r then ("medium-low".toList)
       else ("medium".toList)),
      buildRequests r (lowerStr r.suspected_root_cause) (condC r)⟩,
      by simp [h], ?_⟩
    simpa [hasScreenshotRequest] using
      buildRequests_screenshot r (lowerStr r.suspected_root_cause) (condC r)

/-- C10: the synthesizer's deterministic fallback always produces an
evidence entry whose lower-cased text contains "screenshot" (the third
fixed string mentions screenshots whether or not any were supplied), so
the gate applied to such a report never asks for a screenshot. -/
theorem fallback_report_never_asks_screenshot (d : Str)
    (logs steps ac : Option Str) (scr : List Str) :
    mentionsScreenshot
        (generateBugReport ⟨d, logs, steps, ac, scr⟩).evidence = true ∧
    ((checkIfNeedsMoreInfo (generateBugReport ⟨d, logs, steps, ac, scr⟩)).all
        (fun res => !(hasScreenshotRequest res))) = true := by
  have hm : mentionsScreenshot
      (generateBugReport ⟨d, logs, steps, ac, scr⟩).evidence = true := by
    unfold mentionsScreenshot
    apply List.any_eq_true.mpr
    by_cases h : 0 < scr.length
    · exact ⟨("Provided screenshots (analysis unavailable)".toList),
        by simp [generateBugReport, if_pos h], by decide⟩
    · exact ⟨("No screenshots provided".toList),
        by simp [generateBugReport, if_neg h], by decide⟩
  refine ⟨hm, ?_⟩
  have hc : condC (generateBugReport ⟨d, logs, steps, ac, scr⟩) = true := by
    unfold condC
    apply List.any_eq_true.mpr
    refine ⟨("Reported bug description".toList), ?_, ?_⟩
    · simp [generateBugReport]
    · decide
  rw [checkIfNeedsMoreInfo_eq, hc]
  have hb := buildRequests_screenshot
    (generateBugReport ⟨d, logs, steps, ac, scr⟩)
    (lowerStr
      (generateBugReport ⟨d, logs, steps, ac, scr⟩).suspected_root_cause)
    true
  rw [hm] at hb
  simp [Option.all, hasScreenshotRequest, hb]

/-- C2: the keyword fallback of the Selector returns at most 10 paths,
each drawn from the candidate list, ordered by non-increasing keyword
score, and for every score value the equal-score paths appear in the
candidate list's original order (stability). -/
theorem selector_fallback_spec (bugReport : Str) (allFiles : List Str) :
    (searchCodebase bugReport allFiles).length ≤ 10 ∧
    (∀ f ∈ searchCodebase bugReport allFiles, f ∈ allFiles) ∧
    (searchCodebase bugReport allFiles).Pairwise
      (fun a b => scoreFile (jsSplitWs (lowerStr bugReport)) b ≤
        scoreFile (jsSplitWs (lowerStr bugReport)) a) ∧
    (∀ s, (searchCodebase bugReport allFiles).filter
        (fun f => scoreFile (jsSplitWs (lowerStr bugReport)) f == s) <+:
      allFiles.filter
        (fun f => scoreFile (jsSplitWs (lowerStr bugReport)) f == s)) := by
  refine ⟨?_, ?_, ?_, ?_⟩
  · calc (searchCodebase bugReport allFiles).length
        = min 10 (sortByScoreDesc
            (scoreFile (jsSplitWs (lowerStr bugReport))) allFiles).length :=
          List.length_take 10 _
      _ ≤ 10 := Nat.min_le_left _ _
  · intro f hf
    have hs : f ∈ sortByScoreDesc
        (scoreFile (jsSplitWs (lowerStr bugReport))) allFiles :=
      (List.take_sublist 10 _).mem hf
    exact mem_sortByScoreDesc.mp hs
  · exact List.Pairwise.sublist (List.take_sublist 10 _)
      (pairwise_sortByScoreDesc (scoreFile (jsSplitWs (lowerStr bugReport)))
        allFiles)
  · intro s
    have h1 : (searchCodebase bugReport allFiles).filter
        (fun f => scoreFile (jsSplitWs (lowerStr bugReport)) f == s) <+:
        (sortByScoreDesc (scoreFile (jsSplitWs (lowerStr bugReport)))
            allFiles).filter
          (fun f => scoreFile (jsSplitWs (lowerStr bugReport)) f == s) :=
      List.IsPrefix.filter _ <| List.take_prefix 10 _
    rw [filter_sortByScoreDesc] at h1
    exact h1

/-- C2 witness: a concrete instance of the membership clause of the
Selector fallback theorem. -/
theorem selector_fallback_spec_witness :
    ("src/login/button.js".toList) ∈
      [("src/app.css".toList), ("src/login/button.js".toList),
       ("src/util.js".toList)] :=
  (selector_fallback_spec ("Login button broken".toList)
      [("src/app.css".toList), ("src/login/button.js".toList),
       ("src/util.js".toList)]).2.1
    (("src/login/button.js").toList) (by decide)

/-- Auxiliary count identity: `filterMap` preserves multiplicity, so the
extraction performs no deduplication. -/
theorem count_filterMap_eq_countP (f : Str → Option Str) (l : List Str)
    (p : Str) :
    (l.filterMap f).count p = l.countP (fun a => f a == some p) := by
  induction l with
  | nil => simp
  | cons a rest ih =>
    rw [List.filterMap_cons, List.countP_cons]
    cases hf : f a with
    | none =>
      have : (f a == some p) = false := by simp [hf]
      simp [this, ih]
    | some b =>
      rw [List.count_cons, ih]
      by_cases hb : b = p <;> simp [hb]

/-- C5: the Markdown renderer is a pure function of the structured report
(rendering the same report twice is definitionally the same byte string;
the embedding is effect-free), and its Files Involved extraction keeps
duplicates: the number of occurrences of a path in the extracted list
equals the number of separator-containing evidence entries whose first
regex match is that path. -/
theorem renderer_pure_and_no_dedupe (r : StructuredReport) :
    generateMarkdownReport r = generateMarkdownReport r ∧
    (∀ p, (extractFilePaths r.evidence).count p =
      (r.evidence.filter (fun item =>
          containsSub ("/".toList) item ||
          containsSub ("\\".toList) item)).countP
        (fun item => matchPathRegex item == some p)) := by
  refine ⟨rfl, ?_⟩
  intro p
  exact count_filterMap_eq_countP matchPathRegex _ p

/-- C3 counterexample: with no screenshots supplied, the fallback report
nevertheless contains an evidence entry mentioning screenshots (the fixed
string "No screenshots provided"), refuting the claim that an evidence
entry mentions screenshots only if screenshots were supplied. -/
theorem fallback_mentions_screenshots_without_any :
    (⟨("Login button does nothing on click".toList), none, none, none,
        [] ⟩ : BugData).screenshots = [] ∧
    mentionsScreenshot
      (generateBugReport
        ⟨("Login button does nothing on click".toList), none, none, none,
         [] ⟩).evidence = true := by
  exact ⟨rfl, by decide⟩

/-- C3 amended: the fallback report's title is the first 50 characters of
the description with an ellipsis appended exactly when the description is
longer than 50 characters, its root cause is the fixed "unable to
analyze" sentence, its evidence is three fixed strings whose third entry
is "Provided screenshots (analysis unavailable)" when screenshots were
supplied and "No screenshots provided" otherwise (so it mentions
screenshots in both cases), and its next steps are three fixed generic
instructions. -/
theorem fallback_report_shape (bd : BugData) :
    (generateBugReport bd).title =
      bd.description.take 50 ++
        (if 50 < bd.description.length then ("...".toList) else []) ∧
    (generateBugReport bd).suspected_root_cause =
      ("Unable to generate detailed analysis without AI integration.".toList) ∧
    (generateBugReport bd).evidence =
      [("Reported bug description".toList),
       ("Available code files (analysis unavailable)".toList),
       (if bd.screenshots.isEmpty then ("No screenshots provided".toList)
        else ("Provided screenshots (analysis unavailable)".toList))] ∧
    mentionsScreenshot (generateBugReport bd).evidence = true ∧
    (generateBugReport bd).next_steps =
      [("Review the reported description manually".toList),
       ("Check the relevant files identified in the report".toList),
       ("Implement proper error handling and validation".toList)] := by
  refine ⟨rfl, rfl, ?_, ?_, rfl⟩
  · unfold generateBugReport
    cases h : bd.screenshots <;> simp [h]
  · unfold mentionsScreenshot
    apply List.any_eq_true.mpr
    by_cases h : 0 < bd.screenshots.length
    · exact ⟨("Provided screenshots (analysis unavailable)".toList),
        by simp [generateBugReport, if_pos h], by decide⟩
    · exact ⟨("No screenshots provided".toList),
        by simp [generateBugReport, if_neg h], by decide⟩

/-- C6 counterexample: the empty report id is not present in the (empty)
store, yet `confirmBugReport` raises "Report ID is required" rather than
"Bug report not found" (the store is still not mutated). -/
theorem confirm_empty_id_counterexample :
    (confirmBugReport [] none true true [] ⟨none, []⟩).1 =
      Except.error ("Report ID is required".toList) ∧
    ("Report ID is required".toList) ≠ ("Bug report not found".toList) ∧
    lookupStore ([] : List (Str × ReportRecord)) [] = none ∧
    (confirmBugReport [] none true true [] ⟨none, []⟩).2 =
      (⟨none, []⟩ : StoreState) := by
  exact ⟨rfl, by decide, rfl, rfl⟩

/-- C6 amended: for every non-empty report id not present in either store,
`confirmBugReport` raises "Bug report not found" and leaves the storage
state unchanged; an empty id instead raises "Report ID is required", also
without mutating the store. -/
theorem confirm_unknown_id_spec (reportId : Str)
    (li : Option LinearIssue) (selOk updOk : Bool) (nowIso : Str)
    (st : StoreState) (hne : reportId ≠ [])
    (hrem : ∀ db, st.supabase = some db → lookupStore db reportId = none)
    (hmem : lookupStore st.inMemory reportId = none) :
    confirmBugReport reportId li selOk updOk nowIso st =
      (Except.error ("Bug report not found".toList), st) := by
  have h1 : reportId.isEmpty = false := by simpa using hne
  obtain ⟨sup, mem⟩ := st
  unfold confirmBugReport
  rw [h1]
  simp only [Bool.false_eq_true, if_false]
  cases sup with
  | none =>
    simp only at hmem ⊢
    rw [hmem]
  | some db =>
    have hdb : lookupStore db reportId = none := hrem db rfl
    simp only at hmem ⊢
    cases selOk with
    | false =>
      rw [hmem]
      rfl
    | true =>
      rw [hdb, hmem]
      rfl

/-- C6 witness: confirming a concrete unknown id on an empty store. -/
theorem confirm_unknown_id_spec_witness :
    confirmBugReport ("missing-id".toList) none true true ("t0".toList)
        ⟨none, []⟩ =
      (Except.error ("Bug report not found".toList),
       (⟨none, []⟩ : StoreState)) :=
  confirm_unknown_id_spec ("missing-id".toList) none true true
    ("t0".toList) ⟨none, []⟩ (by decide)
    (fun db h => Option.noConfusion h) rfl

/-- C7: `storeBugReport` is total (a Lean function, so it never raises)
and the record it returns is always persisted: the pair (id, record) ends
up in the remote store or in the in-process map, and when the internal
error path is taken the returned record has a "fallback-" prefixed id and
is stored in the in-process map. -/
theorem store_always_persists (rj : StructuredReport) (rm : Str)
    (li : Option LinearIssue) (ud : UserData) (fa scr : List Str)
    (nowMs rand : Nat) (nowIso : Str) (remoteOk internalError : Bool)
    (st : StoreState) (rec : ReportRecord) (st2 : StoreState)
    (h : storeBugReport rj rm li ud fa scr nowMs rand nowIso remoteOk
        internalError st = (rec, st2)) :
    ((rec.id, rec) ∈ st2.inMemory ∨
      ∃ db, st2.supabase = some db ∧ (rec.id, rec) ∈ db) ∧
    (internalError = true →
      (("fallback-".toList).isPrefixOf rec.id = true ∧
        (rec.id, rec) ∈ st2.inMemory)) := by
  obtain ⟨sup, mem⟩ := st
  cases internalError with
  | true =>
    obtain ⟨hrec, hst⟩ := Prod.mk.injEq .. ▸ h
    subst hrec
    subst hst
    refine ⟨Or.inl (pair_mem_mapSet _ _ _), fun _ => ⟨?_, pair_mem_mapSet _ _ _⟩⟩
    simp
  | false =>
    cases sup with
    | none =>
      obtain ⟨hrec, hst⟩ := Prod.mk.injEq .. ▸ h
      subst hrec
      subst hst
      exact ⟨Or.inl (pair_mem_mapSet _ _ _), fun hc => Bool.noConfusion hc⟩
    | some db =>
      cases remoteOk with
      | true =>
        obtain ⟨hrec, hst⟩ := Prod.mk.injEq .. ▸ h
        subst hrec
        subst hst
        refine ⟨Or.inr ⟨_, rfl, ?_⟩, fun hc => Bool.noConfusion hc⟩
        exact List.mem_append_right _ (List.mem_cons_self _ _)
      | false =>
        obtain ⟨hrec, hst⟩ := Prod.mk.injEq .. ▸ h
        subst hrec
        subst hst
        exact ⟨Or.inl (pair_mem_mapSet _ _ _), fun hc => Bool.noConfusion hc⟩

/-- C7 witness: a concrete internal-error invocation, showing the
"fallback-" prefixed record persisted in the in-process map. -/
theorem store_always_persists_witness :
    (((storeBugReport ⟨("t".toList), ("rc".toList), [], [], [], none⟩
          ("md".toList) none ⟨none, none⟩ [] [] 5 7 ("iso".toList)
          false true ⟨none, []⟩).1.id,
       (storeBugReport ⟨("t".toList), ("rc".toList), [], [], [], none⟩
          ("md".toList) none ⟨none, none⟩ [] [] 5 7 ("iso".toList)
          false true ⟨none, []⟩).1) ∈
        (storeBugReport ⟨("t".toList), ("rc".toList), [], [], [], none⟩
          ("md".toList) none ⟨none, none⟩ [] [] 5 7 ("iso".toList)
          false true ⟨none, []⟩).2.inMemory ∨
      ∃ db, (storeBugReport ⟨("t".toList), ("rc".toList), [], [], [], none⟩
          ("md".toList) none ⟨none, none⟩ [] [] 5 7 ("iso".toList)
          false true ⟨none, []⟩).2.supabase = some db ∧
        ((storeBugReport ⟨("t".toList), ("rc".toList), [], [], [], none⟩
          ("md".toList) none ⟨none, none⟩ [] [] 5 7 ("iso".toList)
          false true ⟨none, []⟩).1.id,
         (storeBugReport ⟨("t".toList), ("rc".toList), [], [], [], none⟩
          ("md".toList) none ⟨none, none⟩ [] [] 5 7 ("iso".toList)
          false true ⟨none, []⟩).1) ∈ db) ∧
    (true = true →
      (("fallback-".toList).isPrefixOf
          (storeBugReport ⟨("t".toList), ("rc".toList), [], [], [], none⟩
            ("md".toList) none ⟨none, none⟩ [] [] 5 7 ("iso".toList)
            false true ⟨none, []⟩).1.id = true ∧
        ((storeBugReport ⟨("t".toList), ("rc".toList), [], [], [], none⟩
            ("md".toList) none ⟨none, none⟩ [] [] 5 7 ("iso".toList)
            false true ⟨none, []⟩).1.id,
         (storeBugReport ⟨("t".toList), ("rc".toList), [], [], [], none⟩
            ("md".toList) none ⟨none, none⟩ [] [] 5 7 ("iso".toList)
            false true ⟨none, []⟩).1) ∈
          (storeBugReport ⟨("t".toList), ("rc".toList), [], [], [], none⟩
            ("md".toList) none ⟨none, none⟩ [] [] 5 7 ("iso".toList)
            false true ⟨none, []⟩).2.inMemory)) :=
  store_always_persists ⟨("t".toList), ("rc".toList), [], [], [], none⟩
    ("md".toList) none ⟨none, none⟩ [] [] 5 7 ("iso".toList) false true
    ⟨none, []⟩ _ _ rfl

/-- C8 counterexample: a record created by the store without a reporter
email carries no status field at all, refuting the claim that every
record's status is "open" at creation. -/
theorem store_status_counterexample :
    (storeBugReport ⟨("t".toList), ("rc".toList), [], [], [], none⟩
        ("md".toList) none ⟨none, none⟩ [] [] 0 0 ("iso".toList)
        false false ⟨none, []⟩).1.status = none ∧
    (none : Option Str) ≠ some ("open".toList) := by
  exact ⟨rfl, by decide⟩

/-- C8 amended: the status of a record created by the store is "open"
exactly when a truthy reporter email was supplied (it is absent otherwise,
and absent on the last-resort fallback record); both confirm updates set
it to "confirmed"; and the additional-info update never changes the
status - it only merges the responses (plus a fresh `submitted_at`) into
`additional_info`, sets the feedback-request marker to false, refreshes
`last_updated`, and leaves every other report field unchanged. -/
theorem lifecycle_status_spec :
    (∀ (rj : StructuredReport) (rm : Str) (li : Option LinearIssue)
       (ud : UserData) (fa scr : List Str) (nowMs rand : Nat)
       (nowIso : Str) (remoteOk : Bool) (st : StoreState),
       (storeBugReport rj rm li ud fa scr nowMs rand nowIso remoteOk
           false st).1.status =
         (if isTruthyStr ud.email then some ("open".toList) else none)) ∧
    (∀ (rj : StructuredReport) (rm : Str) (li : Option LinearIssue)
       (ud : UserData) (fa scr : List Str) (nowMs rand : Nat)
       (nowIso : Str) (remoteOk : Bool) (st : StoreState),
       (storeBugReport rj rm li ud fa scr nowMs rand nowIso remoteOk
           true st).1.status = none) ∧
    (∀ (r : ReportRecord) (li : Option LinearIssue) (t : Str),
       (confirmUpdate r li t).status = some ("confirmed".toList)) ∧
    (∀ (r : ReportRecord) (li : Option LinearIssue) (t : Str),
       (confirmUpdateRemote r li t).status = some ("confirmed".toList)) ∧
    (∀ (r : ReportRecord) (resp : List (Str × Str)) (t : Str),
       (submitUpdate r resp t).status = r.status ∧
       (submitUpdate r resp t).feedback_requested = some false ∧
       (submitUpdate r resp t).content_json.additional_info =
         jsMerge (jsMerge r.content_json.additional_info resp)
           [(("submitted_at".toList), t)] ∧
       (submitUpdate r resp t).content_json.title = r.content_json.title ∧
       (submitUpdate r resp t).content_json.suspected_root_cause =
         r.content_json.suspected_root_cause ∧
       (submitUpdate r resp t).content_json.evidence =
         r.content_json.evidence ∧
       (submitUpdate r resp t).content_json.next_steps =
         r.content_json.next_steps ∧
       (submitUpdate r resp t).title = r.title ∧
       (submitUpdate r resp t).reporter_email = r.reporter_email) ∧
    (∀ (reportId : Str) (responses : List (Str × Str)) (sOk uOk : Bool)
       (nowIso : Str) (mem : List (Str × ReportRecord))
       (rec : ReportRecord),
       reportId ≠ [] → responses ≠ [] →
       lookupStore mem reportId = some rec →
       lookupStore (submitAdditionalInfo reportId responses sOk uOk nowIso
           ⟨none, mem⟩).2.inMemory reportId =
         some (submitUpdate rec responses nowIso)) := by
  refine ⟨?_, ?_, ?_, ?_, ?_, ?_⟩
  · intro rj rm li ud fa scr nowMs rand nowIso remoteOk st
    obtain ⟨sup, mem⟩ := st
    cases sup with
    | none => rfl
    | some db => cases remoteOk <;> rfl
  · intro rj rm li ud fa scr nowMs rand nowIso remoteOk st
    rfl
  · intro r li t
    rfl
  · intro r li t
    cases li <;> rfl
  · intro r resp t
    exact ⟨rfl, rfl, rfl, rfl, rfl, rfl, rfl, rfl, rfl⟩
  · intro reportId responses sOk uOk nowIso mem rec hid hresp hmem
    rw [submitAdditionalInfo_memory reportId responses sOk uOk nowIso mem
      rec hid hresp hmem]
    exact lookupStore_mapSet_self mem reportId _

/-- C8 witness: the lifecycle conjuncts instantiated on concrete data,
discharging the hypotheses of the in-memory submission clause. -/
theorem lifecycle_status_spec_witness :
    lookupStore (submitAdditionalInfo ("id1".toList)
        [(("a".toList), ("1".toList))] true true ("t1".toList)
        ⟨none, [(("id1".toList),
          ⟨("id1".toList), ("t".toList),
           ⟨("t".toList), ("rc".toList), [], [], [], none⟩,
           ("md".toList), ("c0".toList), none, none, none, none, none,
           none, none, [], [], none⟩)]⟩).2.inMemory ("id1".toList) =
      some (submitUpdate
        ⟨("id1".toList), ("t".toList),
         ⟨("t".toList), ("rc".toList), [], [], [], none⟩,
         ("md".toList), ("c0".toList), none, none, none, none, none,
         none, none, [], [], none⟩
        [(("a".toList), ("1".toList))] ("t1".toList)) :=
  lifecycle_status_spec.2.2.2.2.2 ("id1".toList)
    [(("a".toList), ("1".toList))] true true ("t1".toList)
    [(("id1".toList),
      ⟨("id1".toList), ("t".toList),
       ⟨("t".toList), ("rc".toList), [], [], [], none⟩,
       ("md".toList), ("c0".toList), none, none, none, none, none,
       none, none, [], [], none⟩)]
    ⟨("id1".toList), ("t".toList),
     ⟨("t".toList), ("rc".toList), [], [], [], none⟩,
     ("md".toList), ("c0".toList), none, none, none, none, none,
     none, none, [], [], none⟩
    (by decide) (by decide) rfl

/-- C9: for a stored report (whether held in the in-process map or in the
remote store) whose `additional_info` starts empty, submitting responses
for key "a" and then for key "b" yields an `additional_info` mapping in
which both keys are present with their submitted values, and submitting
key "a" twice leaves a single "a" entry holding the later value
(overwrite, not duplication). -/
theorem additional_info_merge_spec (mem db : List (Str × ReportRecord))
    (id : Str) (recm recr : ReportRecord) (v1 v2 t1 t2 : Str)
    (sOk1 uOk1 sOk2 uOk2 : Bool) (hid : id ≠ [])
    (hmem : lookupStore mem id = some recm)
    (hm0 : recm.content_json.additional_info = [])
    (hdb : lookupStore db id = some recr)
    (hr0 : recr.content_json.additional_info = []) :
    (∃ r2, lookupStore (submitAdditionalInfo id [(("b".toList), v2)] sOk2
          uOk2 t2 (submitAdditionalInfo id [(("a".toList), v1)] sOk1 uOk1
            t1 ⟨none, mem⟩).2).2.inMemory id = some r2 ∧
      jsLookup r2.content_json.additional_info ("a".toList) = some v1 ∧
      jsLookup r2.content_json.additional_info ("b".toList) = some v2) ∧
    (∃ r2, lookupStore (submitAdditionalInfo id [(("a".toList), v2)] sOk2
          uOk2 t2 (submitAdditionalInfo id [(("a".toList), v1)] sOk1 uOk1
            t1 ⟨none, mem⟩).2).2.inMemory id = some r2 ∧
      r2.content_json.additional_info.filter
          (fun p => p.1 == ("a".toList)) = [(("a".toList), v2)] ∧
      jsLookup r2.content_json.additional_info ("a".toList) = some v2) ∧
    (∃ db2 r2, (submitAdditionalInfo id [(("b".toList), v2)] true true t2
          (submitAdditionalInfo id [(("a".toList), v1)] true true t1
            ⟨some db, mem⟩).2).2.supabase = some db2 ∧
      lookupStore db2 id = some r2 ∧
      jsLookup r2.content_json.additional_info ("a".toList) = some v1 ∧
      jsLookup r2.content_json.additional_info ("b".toList) = some v2) ∧
    (∃ db2 r2, (submitAdditionalInfo id [(("a".toList), v2)] true true t2
          (submitAdditionalInfo id [(("a".toList), v1)] true true t1
            ⟨some db, mem⟩).2).2.supabase = some db2 ∧
      lookupStore db2 id = some r2 ∧
      r2.content_json.additional_info.filter
          (fun p => p.1 == ("a".toList)) = [(("a".toList), v2)] ∧
      jsLookup r2.content_json.additional_info ("a".toList) = some v2) := by
  have hone : ∀ v : Str, ([(("a".toList), v)] : List (Str × Str)) ≠ [] :=
    fun v => by simp
  have honeb : ([(("b".toList), v2)] : List (Str × Str)) ≠ [] := by simp
  refine ⟨?_, ?_, ?_, ?_⟩
  · have e1 : (submitAdditionalInfo id [(("a".toList), v1)] sOk1 uOk1 t1
        ⟨none, mem⟩).2 =
        ⟨none, mapSet mem id (submitUpdate recm [(("a".toList), v1)] t1)⟩ :=
      by rw [submitAdditionalInfo_memory id _ sOk1 uOk1 t1 mem recm hid
          (hone v1) hmem]
    rw [e1, submitAdditionalInfo_memory id _ sOk2 uOk2 t2 _ _ hid honeb
      (lookupStore_mapSet_self mem id _)]
    refine ⟨_, lookupStore_mapSet_self _ id _, ?_, ?_⟩
    · exact (submitUpdate_twice_distinct_keys recm hm0 v1 v2 t1 t2).1
    · exact (submitUpdate_twice_distinct_keys recm hm0 v1 v2 t1 t2).2
  · have e1 : (submitAdditionalInfo id [(("a".toList), v1)] sOk1 uOk1 t1
        ⟨none, mem⟩).2 =
        ⟨none, mapSet mem id (submitUpdate recm [(("a".toList), v1)] t1)⟩ :=
      by rw [submitAdditionalInfo_memory id _ sOk1 uOk1 t1 mem recm hid
          (hone v1) hmem]
    rw [e1, submitAdditionalInfo_memory id _ sOk2 uOk2 t2 _ _ hid
      (hone v2) (lookupStore_mapSet_self mem id _)]
    refine ⟨_, lookupStore_mapSet_self _ id _, ?_, ?_⟩
    · exact (submitUpdate_twice_same_key recm hm0 v1 v2 t1 t2).1
    · exact (submitUpdate_twice_same_key recm hm0 v1 v2 t1 t2).2
  · have e1 : (submitAdditionalInfo id [(("a".toList), v1)] true true t1
        ⟨some db, mem⟩).2 =
        ⟨some (db.map (fun p =>
          if p.1 == id then
            (p.1, submitUpdate recr [(("a".toList), v1)] t1)
          else p)), mem⟩ :=
      by rw [submitAdditionalInfo_remote id _ t1 db mem recr hid
          (hone v1) hdb]
    have hlk1 : lookupStore (db.map (fun p =>
        if p.1 == id then
          (p.1, submitUpdate recr [(("a".toList), v1)] t1)
        else p)) id = some (submitUpdate recr [(("a".toList), v1)] t1) :=
      lookupStore_map_replace db id _
        (any_eq_true_of_lookupStore db id recr hdb)
    rw [e1, submitAdditionalInfo_remote id _ t2 _ mem _ hid honeb hlk1]
    refine ⟨_, submitUpdate (submitUpdate recr [(("a".toList), v1)] t1)
      [(("b".toList), v2)] t2, rfl, ?_, ?_, ?_⟩
    · exact lookupStore_map_replace _ id _
        (any_eq_true_of_lookupStore _ id _ hlk1)
    · exact (submitUpdate_twice_distinct_keys recr hr0 v1 v2 t1 t2).1
    · exact (submitUpdate_twice_distinct_keys recr hr0 v1 v2 t1 t2).2
  · have e1 : (submitAdditionalInfo id [(("a".toList), v1)] true true t1
        ⟨some db, mem⟩).2 =
        ⟨some (db.map (fun p =>
          if p.1 == id then
            (p.1, submitUpdate recr [(("a".toList), v1)] t1)
          else p)), mem⟩ :=
      by rw [submitAdditionalInfo_remote id _ t1 db mem recr hid
          (hone v1) hdb]
    have hlk1 : lookupStore (db.map (fun p =>
        if p.1 == id then
          (p.1, submitUpdate recr [(("a".toList), v1)] t1)
        else p)) id = some (submitUpdate recr [(("a".toList), v1)] t1) :=
      lookupStore_map_replace db id _
        (any_eq_true_of_lookupStore db id recr hdb)
    rw [e1, submitAdditionalInfo_remote id _ t2 _ mem _ hid
      (hone v2) hlk1]
    refine ⟨_, submitUpdate (submitUpdate recr [(("a".toList), v1)] t1)
      [(("a".toList), v2)] t2, rfl, ?_, ?_, ?_⟩
    · exact lookupStore_map_replace _ id _
        (any_eq_true_of_lookupStore _ id _ hlk1)
    · exact (submitUpdate_twice_same_key recr hr0 v1 v2 t1 t2).1
    · exact (submitUpdate_twice_same_key recr hr0 v1 v2 t1 t2).2

/-- C9 witness: both-keys clause of the merge theorem on a concrete
stored report. -/
theorem additional_info_merge_spec_witness :
    ∃ r2, lookupStore (submitAdditionalInfo ("id1".toList)
        [(("b".toList), ("2".toList))] true true ("t2".toList)
        (submitAdditionalInfo ("id1".toList)
          [(("a".toList), ("1".toList))] true true ("t1".toList)
          ⟨none, [(("id1".toList),
            ⟨("id1".toList), ("t".toList),
             ⟨("t".toList), ("rc".toList), [], [], [], none⟩,
             ("md".toList), ("c0".toList), none, none, none, none, none,
             none, none, [], [], none⟩)]⟩).2).2.inMemory ("id1".toList) =
      some r2 ∧
    jsLookup r2.content_json.additional_info ("a".toList) =
      some ("1".toList) ∧
    jsLookup r2.content_json.additional_info ("b".toList) =
      some ("2".toList) :=
  (additional_info_merge_spec
    [(("id1".toList),
      ⟨("id1".toList), ("t".toList),
       ⟨("t".toList), ("rc".toList), [], [], [], none⟩,
       ("md".toList), ("c0".toList), none, none, none, none, none,
       none, none, [], [], none⟩)]
    [(("id1".toList),
      ⟨("id1".toList), ("t".toList),
       ⟨("t".toList), ("rc".toList), [], [], [], none⟩,
       ("md".toList), ("c0".toList), none, none, none, none, none,
       none, none, [], [], none⟩)]
    ("id1".toList)
    ⟨("id1".toList), ("t".toList),
     ⟨("t".toList), ("rc".toList), [], [], [], none⟩,
     ("md".toList), ("c0".toList), none, none, none, none, none,
     none, none, [], [], none⟩
    ⟨("id1".toList), ("t".toList),
     ⟨("t".toList), ("rc".toList), [], [], [], none⟩,
     ("md".toList), ("c0".toList), none, none, none, none, none,
     none, none, [], [], none⟩
    ("1".toList) ("2".toList) ("t1".toList) ("t2".toList)
    true true true true (by decide) rfl rfl rfl rfl).1

end BugAutopilot
